import Mathlib

/-!
Verification of the MT5 Expert-Advisor core (risk manager, regime-momentum
strategy signals, bar-by-bar backtest engine, performance aggregation and the
grid-search optimizer) against its natural-language specification.

The Python source is embedded shallowly:
* floating-point arithmetic is modelled by exact rationals (`ℚ`);
* `NaN` indicator values ("not warmed up") are modelled by `Option ℚ` with
  `none` for `NaN`; Python's `NaN < x`, `NaN > x`, `NaN <= x`, `NaN >= x`
  comparisons all evaluate to `False`, which the `py*` comparison helpers
  reproduce;
* Python truthiness of an optional float (`if sl_price and tp_price:`,
  `if not exit_price:`) is `truthy`: `None` and `0.0` are falsy;
* Python's builtin `round` (round-half-to-even) is `pyRound`.
-/

/-- The string literal "BUY" used by the source. -/
def sBUY : String := "BUY"

/-- The string literal "SELL" used by the source. -/
def sSELL : String := "SELL"

/-- The string literal "HOLD" used by the source. -/
def sHOLD : String := "HOLD"

/-- Python `str.upper()` (ASCII letters, which is all the source compares). -/
def pyUpper (s : String) : String := String.mk (s.data.map Char.toUpper)

/-- Python truthiness of an optional float: `None` and `0.0` are falsy. -/
def truthy : Option ℚ → Bool
  | none => false
  | some q => q ≠ 0

/-- Floor of a rational as an integer (`Int.fdiv` is floor division). -/
def ratFloor (q : ℚ) : ℤ := Int.fdiv q.num (Int.ofNat q.den)

/-- Python's builtin `round` to an integer: round half to even. -/
def pyRoundInt (q : ℚ) : ℤ :=
  let f := ratFloor q
  let r := q - (f : ℚ)
  if r < 1/2 then f
  else if 1/2 < r then f + 1
  else if f % 2 = 0 then f else f + 1

/-- Python's builtin `round(x, n)` modelled on exact rationals. -/
def pyRound (q : ℚ) (n : ℕ) : ℚ := (pyRoundInt (q * 10 ^ n) : ℚ) / 10 ^ n

/-- Python `a > b` where `a`, `b` may be `NaN` (`none`): any comparison with
`NaN` is `False`. -/
def pyGt : Option ℚ → Option ℚ → Bool
  | some a, some b => decide (b < a)
  | _, _ => false

/-- Python `a < b` with `NaN` compared as `False`. -/
def pyLt : Option ℚ → Option ℚ → Bool
  | some a, some b => decide (a < b)
  | _, _ => false

/-- Python `a >= b` with `NaN` compared as `False`. -/
def pyGe : Option ℚ → Option ℚ → Bool
  | some a, some b => decide (b ≤ a)
  | _, _ => false

/-- Python `a <= b` with `NaN` compared as `False`. -/
def pyLe : Option ℚ → Option ℚ → Bool
  | some a, some b => decide (a ≤ b)
  | _, _ => false

/-- Modelled from Python's float `repr` restricted to the powers of ten the
claims need: `10 ^ (-k)`.  CPython renders `1.0`, `0.1`, `0.01`, `0.001`,
`0.0001` with a decimal point, and switches to scientific notation
(`1e-05`, `1e-06`, ...) from `10 ^ (-5)` downwards. -/
def pyFloatStrPow10 : ℕ → String
  | 0 => "1.0"
  | 1 => "0.1"
  | 2 => "0.01"
  | 3 => "0.001"
  | 4 => "0.0001"
  | (k + 5) =>
      String.append "1e-"
        (if k + 5 < 10 then String.append "0" (Nat.repr (k + 5)) else Nat.repr (k + 5))

/-- `risk_manager.py` line 100:
`self.price_decimals = str(point)[::-1].find('.') if '.' in str(point) else 0`,
as a function of the rendered string `str(point)`. -/
def price_decimals_of (s : String) : ℕ :=
  if s.data.contains '.' then s.data.reverse.findIdx (fun c => c = '.') else 0

/-- The `RiskManager` of `src/risk_manager.py` after `__init__`:
`stop_loss_pips`, `risk_reward_ratio` (field `rr`), `point`, and the derived
`price_decimals`. -/
structure RiskManager where
  stop_loss_pips : ℤ
  rr : ℚ
  point : ℚ
  price_decimals : ℕ
deriving Repr, DecidableEq

/-- `RiskManager.__init__` (risk_manager.py lines 78-100): validates the
parameters (`ValueError` becomes `Except.error`) and derives `price_decimals`
from the rendered point string. -/
def RiskManager.init (symbolPointStr : String) (stop_loss_pips : ℤ) (rr : ℚ)
    (point : ℚ) : Except String RiskManager :=
  if stop_loss_pips ≤ 0 then Except.error "stop_loss_pips must be a positive integer."
  else if rr ≤ 0 then Except.error "risk_reward_ratio must be a positive number."
  else Except.ok ⟨stop_loss_pips, rr, point, price_decimals_of symbolPointStr⟩

/-- `RiskManager.calculate_sl_tp` as it stands in `src/risk_manager.py`
lines 102-131: takes an order type and a single entry price, ignores any
spread or broker minimum stop distance, and returns the pair
`(stop_loss_price, take_profit_price)`; `(None, None)` for an invalid
order type. -/
def RiskManager.calculate_sl_tp (rm : RiskManager) (order_type : String)
    (entry_price : ℚ) : Option ℚ × Option ℚ :=
  let sl_in_price : ℚ := (rm.stop_loss_pips : ℚ) * rm.point
  let tp_in_price : ℚ := sl_in_price * rm.rr
  if pyUpper order_type = sBUY then
    (some (pyRound (entry_price - sl_in_price) rm.price_decimals),
     some (pyRound (entry_price + tp_in_price) rm.price_decimals))
  else if pyUpper order_type = sSELL then
    (some (pyRound (entry_price + sl_in_price) rm.price_decimals),
     some (pyRound (entry_price - tp_in_price) rm.price_decimals))
  else (none, none)

/-- Parameters of the spec's risk manager (§4.4): configured stop-loss
increments, broker minimum-stop increments, reward:risk ratio, price
increment, decimal precision. -/
structure SpecRiskParams where
  sl_increments : ℚ
  min_stop_increments : ℚ
  rr : ℚ
  point : ℚ
  decimals : ℕ
deriving Repr, DecidableEq

/-- Modelled from the spec: the `calculate_sl_tp(direction, current_ask,
current_bid)` described in §4.4 steps 1-7 — the version all three in-repo
callers (`main.py`, `backtest.py`, `dynamic_backtest.py`) invoke but which is
missing from `src/risk_manager.py`.  Spread in increments = `(ask-bid)/point`;
required minimum = spread + broker minimum; effective stop distance =
`max(configured, required)`; returns
`(stop_price, target_price, effective_stop_distance_in_increments)`,
`none` for a non-BUY/SELL direction. -/
def spec_calculate_sl_tp (p : SpecRiskParams) (direction : String)
    (ask bid : ℚ) : Option (ℚ × ℚ × ℚ) :=
  let spread : ℚ := (ask - bid) / p.point
  let required : ℚ := spread + p.min_stop_increments
  let eff : ℚ := max p.sl_increments required
  let tpd : ℚ := eff * p.rr
  if direction = sBUY then
    some (pyRound (ask - eff * p.point) p.decimals,
          pyRound (ask + tpd * p.point) p.decimals, eff)
  else if direction = sSELL then
    some (pyRound (bid + eff * p.point) p.decimals,
          pyRound (bid - tpd * p.point) p.decimals, eff)
  else none

/-- The indicator parameters of `RegimeMomentumStrategy.__init__`
(trading_strategy.py lines 16-35). -/
structure StratParams where
  fast_ema_period : ℕ
  slow_ema_period : ℕ
  adx_period : ℕ
  adx_threshold : ℚ
  stoch_k : ℕ
  stoch_d : ℕ
  stoch_slowing : ℕ
  stoch_oversold : ℚ
  stoch_overbought : ℚ
deriving Repr, DecidableEq

/-- `self.min_bars` (trading_strategy.py line 38). -/
def StratParams.min_bars (p : StratParams) : ℕ :=
  max (max p.fast_ema_period p.slow_ema_period) (max p.adx_period p.stoch_k)

/-- `RegimeMomentumStrategy.get_entry_signal` (trading_strategy.py lines
51-96) as a function of the series length and the indicator values the
decision reads: ADX, Stochastic %K and the fast/slow EMA at the last closed
bar (`df.iloc[-2]`), and %K at the prior bar (`df.iloc[-3]`).  The numeric
indicator pipeline (pandas-ta) is abstracted to the values it delivers at
those two rows; `none` models a pandas `NaN`, and the `py*` comparisons
reproduce Python's rule that every comparison against `NaN` is `False`. -/
def get_entry_signal (p : StratParams) (nbars : ℕ)
    (adx_last stochk_last stochk_prev fast_ema_last slow_ema_last : Option ℚ) :
    String :=
  if nbars < p.min_bars + 3 then sHOLD
  else if adx_last = none ∨ stochk_last = none ∨ slow_ema_last = none then sHOLD
  else
    let is_trending := pyGt adx_last (some p.adx_threshold)
    let is_uptrend := pyGt fast_ema_last slow_ema_last
    let is_downtrend := pyLt fast_ema_last slow_ema_last
    let stoch_crossed_up :=
      pyGt stochk_last (some p.stoch_oversold) && pyLe stochk_prev (some p.stoch_oversold)
    if is_trending && is_uptrend && stoch_crossed_up then sBUY
    else
      let stoch_crossed_down :=
        pyLt stochk_last (some p.stoch_overbought) && pyGe stochk_prev (some p.stoch_overbought)
      if is_trending && is_downtrend && stoch_crossed_down then sSELL
      else sHOLD

/-- `RegimeMomentumStrategy.get_exit_signal` (trading_strategy.py lines
98-138) as a function of the series length, the fast/slow EMA values at the
last (`df.iloc[-2]`) and prior (`df.iloc[-3]`) closed bars, and the
`position_type` string. -/
def get_exit_signal (p : StratParams) (nbars : ℕ)
    (fast_last slow_last fast_prev slow_prev : Option ℚ)
    (position_type : String) : Bool :=
  if nbars < p.min_bars + 3 then false
  else if slow_last = none ∨ slow_prev = none then false
  else if pyUpper position_type = sBUY then
    pyLt fast_last slow_last && pyGe fast_prev slow_prev
  else if pyUpper position_type = sSELL then
    pyGt fast_last slow_last && pyLe fast_prev slow_prev
  else false

/-- A pandas DataFrame modelled as its named columns. -/
structure Frame where
  cols : List (String × List ℚ)
deriving Repr, DecidableEq

/-- The heap of live DataFrame objects; a frame id is an index into the
list, so Python aliasing is explicit. -/
structure Store where
  frames : List Frame
deriving Repr, DecidableEq

/-- Dereference a frame id. -/
def Store.read (st : Store) (i : ℕ) : Option Frame := st.frames[i]?

/-- `DataFrame.copy()`: allocate a fresh object with the same columns and
return its id. -/
def Store.alloc (st : Store) (f : Frame) : Store × ℕ :=
  (⟨st.frames ++ [f]⟩, st.frames.length)

/-- In-place mutation of the frame at id `i` (what an `append=True`
indicator call does to its receiver). -/
def Store.write (st : Store) (i : ℕ) (f : Frame) : Store :=
  ⟨st.frames.set i f⟩

/-- One `append=True` indicator call appends that call's output columns. -/
def Frame.appendCols (f : Frame) (newCols : List (String × List ℚ)) : Frame :=
  ⟨f.cols ++ newCols⟩

/-- The frame effects of `get_entry_signal` (trading_strategy.py lines
61-62): `df = historical_data.copy()` allocates a fresh frame, then
`_calculate_indicators(df)` runs one `append=True` call per indicator
(EMA fast, EMA slow, ADX, Stochastic — `indCols` carries each call's output
columns), mutating only the copy.  The caller's frame `h` is only read. -/
def get_entry_signal_frames (st : Store) (h : ℕ)
    (indCols : List (List (String × List ℚ))) : Store :=
  match st.read h with
  | none => st
  | some f =>
    let a := st.alloc f
    indCols.foldl (fun s cs =>
      match s.read a.2 with
      | none => s
      | some df => s.write a.2 (df.appendCols cs)) a.1

/-- The frame effects of `get_exit_signal` (trading_strategy.py lines
113-116): `df = historical_data.copy()`, then two EMA `append=True` calls on
the copy. -/
def get_exit_signal_frames (st : Store) (h : ℕ)
    (fastCols slowCols : List (String × List ℚ)) : Store :=
  match st.read h with
  | none => st
  | some f =>
    let a := st.alloc f
    [fastCols, slowCols].foldl (fun s cs =>
      match s.read a.2 with
      | none => s
      | some df => s.write a.2 (df.appendCols cs)) a.1

/-- One OHLC bar of the backtest DataFrame (`time`, `open` as `op`,
`high`, `low`, `close`). -/
structure Candle where
  time : ℕ
  op : ℚ
  high : ℚ
  low : ℚ
  close : ℚ
deriving Repr, DecidableEq

/-- An open trade as built by the backtest loop (backtest.py lines
166-168); the loop runs one symbol, so the constant `symbol` key is
omitted. -/
structure Trade where
  id : ℕ
  type : String
  entry_time : ℕ
  entry_price : ℚ
  sl : ℚ
  tp : ℚ
deriving Repr, DecidableEq

/-- A completed trade: the open-trade fields plus the exit fields added by
`current_trade.update({...})` (backtest.py lines 152-153). -/
structure ClosedTrade where
  trade : Trade
  exit_price : ℚ
  exit_time : ℕ
  pnl_pips : ℚ
  comment : String
deriving Repr, DecidableEq

/-- The loop state of backtest.py lines 117-118: `current_trade` and
`completed_trades`. -/
structure SimState where
  current_trade : Option Trade
  completed_trades : List ClosedTrade
deriving Repr, DecidableEq

/-- Step 4a of the loop (backtest.py lines 129-139): determine the SL/TP
exit price and comment; the stop check comes before the target check for
both directions. -/
def check_sl_tp (t : Trade) (c : Candle) : Option ℚ × String :=
  if t.type = sBUY then
    if c.low ≤ t.sl then (some t.sl, "SL Hit")
    else if c.high ≥ t.tp then (some t.tp, "TP Hit")
    else (none, "")
  else if t.type = sSELL then
    if c.high ≥ t.sl then (some t.sl, "SL Hit")
    else if c.low ≤ t.tp then (some t.tp, "TP Hit")
    else (none, "")
  else (none, "")

/-- Steps 4a-4c of the loop (backtest.py lines 126-155): SL/TP first; if
`not exit_price` (Python truthiness: `None` or `0.0`), ask the strategy for
a protective exit at the bar close; `if exit_price:` then record the
completed trade and go flat.  `exitSig` abstracts
`strategy.get_exit_signal(historical_slice, current_trade['type'])`. -/
def exitPhase (exitSig : List Candle → String → Bool) (point : ℚ)
    (h : List Candle) (c : Candle) (s : SimState) : SimState :=
  match s.current_trade with
  | none => s
  | some t =>
    let ec := check_sl_tp t c
    let ec2 : Option ℚ × String :=
      if truthy ec.1 then ec
      else if exitSig h t.type then (some c.close, "Strategy Exit (EMA Cross)")
      else ec
    match ec2.1 with
    | none => s
    | some q =>
      if q = 0 then s
      else
        let pnl := if t.type = sBUY then (q - t.entry_price) / point
                   else (t.entry_price - q) / point
        ⟨none, s.completed_trades ++ [⟨t, q, c.time, pnl, ec2.2⟩]⟩

/-- The entry block of the loop (backtest.py lines 157-168): run only when
`not current_trade`; on a BUY/SELL signal call the risk manager with
`current_ask = current_bid = close` and open a trade if both levels are
truthy (`if sl_price and tp_price:`).  `entrySig` abstracts
`strategy.get_entry_signal(historical_slice)` and `riskCalc` abstracts
`risk_manager.calculate_sl_tp(order_type, current_ask, current_bid)`. -/
def entryPhase (entrySig : List Candle → String)
    (riskCalc : String → ℚ → ℚ → Option ℚ × Option ℚ)
    (h : List Candle) (c : Candle) (s : SimState) : SimState :=
  match s.current_trade with
  | some _ => s
  | none =>
    let sig := entrySig h
    if sig = sBUY ∨ sig = sSELL then
      match riskCalc sig c.close c.close with
      | (some slp, some tpp) =>
        if slp = 0 ∨ tpp = 0 then s
        else ⟨some ⟨s.completed_trades.length + 1, sig, c.time, c.close, slp, tpp⟩,
              s.completed_trades⟩
      | _ => s
    else s

/-- One full loop iteration (backtest.py lines 121-168): exits are
processed first, then — in the same iteration — the entry check runs
whenever `current_trade` is `None`. -/
def stepBar (entrySig : List Candle → String)
    (exitSig : List Candle → String → Bool)
    (riskCalc : String → ℚ → ℚ → Option ℚ × Option ℚ) (point : ℚ)
    (h : List Candle) (c : Candle) (s : SimState) : SimState :=
  entryPhase entrySig riskCalc h c (exitPhase exitSig point h c s)

/-- The simulation loop over the remaining bars; `hist` is the already
processed prefix, so bar `c` sees `historical_slice = hist ++ [c]`
(`df.iloc[:i+1]`, backtest.py line 123). -/
def runLoop (entrySig : List Candle → String)
    (exitSig : List Candle → String → Bool)
    (riskCalc : String → ℚ → ℚ → Option ℚ × Option ℚ) (point : ℚ) :
    List Candle → List Candle → SimState → SimState
  | _, [], s => s
  | hist, c :: rest, s =>
      runLoop entrySig exitSig riskCalc point (hist ++ [c]) rest
        (stepBar entrySig exitSig riskCalc point (hist ++ [c]) c s)

/-- The per-bar state trace of the simulation loop: the state after each
simulated bar. -/
def simTrace (entrySig : List Candle → String)
    (exitSig : List Candle → String → Bool)
    (riskCalc : String → ℚ → ℚ → Option ℚ × Option ℚ) (point : ℚ) :
    List Candle → List Candle → SimState → List SimState
  | _, [], _ => []
  | hist, c :: rest, s =>
      let s2 := stepBar entrySig exitSig riskCalc point (hist ++ [c]) c s
      s2 :: simTrace entrySig exitSig riskCalc point (hist ++ [c]) rest s2

/-- Number of open positions in a loop state (the loop keeps a single
optional `current_trade`). -/
def openCount (s : SimState) : ℕ :=
  match s.current_trade with
  | none => 0
  | some _ => 1

/-- Example strategy input: an entry signal that always fires BUY. -/
def cEntryBuy : List Candle → String := fun _ => sBUY

/-- Example strategy input: a protective exit that never fires. -/
def cExitNever : List Candle → String → Bool := fun _ _ => false

/-- Example risk input: a stop one unit below and a target one unit above
the ask. -/
def cRisk : String → ℚ → ℚ → Option ℚ × Option ℚ :=
  fun _ ask _ => (some (ask - 1), some (ask + 1))

/-- Example bar: flat at price 10. -/
def cBar1 : Candle := ⟨1, 10, 10, 10, 10⟩

/-- Example bar: gaps down to 8, piercing a stop at 9. -/
def cBar2 : Candle := ⟨2, 8, 8, 8, 8⟩

/-- backtest.py line 178: the winning partition of the ledger's pnl
column. -/
def winning_trades (pnl : List ℚ) : List ℚ := pnl.filter (fun x => 0 < x)

/-- backtest.py line 179: the non-positive partition. -/
def losing_trades (pnl : List ℚ) : List ℚ := pnl.filter (fun x => x ≤ 0)

/-- backtest.py line 180. -/
def win_rate (pnl : List ℚ) : ℚ :=
  if 0 < pnl.length then ((winning_trades pnl).length : ℚ) / (pnl.length : ℚ) * 100
  else 0

/-- backtest.py line 182: pandas `mean()` of the winning partition, 0 when
empty. -/
def avg_win (pnl : List ℚ) : ℚ :=
  if 0 < (winning_trades pnl).length then
    (winning_trades pnl).sum / ((winning_trades pnl).length : ℚ)
  else 0

/-- backtest.py line 183. -/
def avg_loss (pnl : List ℚ) : ℚ :=
  if 0 < (losing_trades pnl).length then
    (losing_trades pnl).sum / ((losing_trades pnl).length : ℚ)
  else 0

/-- backtest.py line 184. -/
def gross_profit (pnl : List ℚ) : ℚ := (winning_trades pnl).sum

/-- backtest.py line 185. -/
def gross_loss (pnl : List ℚ) : ℚ := |(losing_trades pnl).sum|

/-- backtest.py line 186; `none` models `float('inf')`. -/
def profit_factor (pnl : List ℚ) : Option ℚ :=
  if 0 < gross_loss pnl then some (gross_profit pnl / gross_loss pnl) else none

/-- `itertools.product(*values)` (dynamic_backtest.py line 162): the full
Cartesian product, leftmost value list varying slowest. -/
def pyProduct : List (List ℚ) → List (List ℚ)
  | [] => [[]]
  | l :: ls => l.flatMap (fun x => (pyProduct ls).map (fun v => x :: v))

/-- One optimization result record (dynamic_backtest.py lines 173-176):
the parameter tuple in grid order, `round(profit_factor, 2)` with `none`
for `float('inf')`, and the trade count. -/
structure OptResult where
  params : List ℚ
  pf : Option ℚ
  total_trades : ℕ
deriving Repr, DecidableEq

/-- `a ≤ b` on profit factors where `none` is `float('inf')`. -/
def pfLe (a b : Option ℚ) : Bool :=
  match a, b with
  | _, none => true
  | none, some _ => false
  | some x, some y => decide (x ≤ y)

/-- Descending order on result records by profit factor. -/
def pfGeRel (a b : OptResult) : Prop := pfLe b.pf a.pf = true

instance : DecidableRel pfGeRel := fun a b => by
  unfold pfGeRel; infer_instance

/-- `results_df.sort_values(by='profit_factor', ascending=False)`
(dynamic_backtest.py line 185), modelled as a sort by the profit-factor
key — only the ordered result is observable. -/
def sortPfDesc (l : List OptResult) : List OptResult := l.insertionSort pfGeRel

/-- The optimization core of `run_dynamic_backtest` (dynamic_backtest.py
lines 159-185): enumerate the grid's Cartesian product, run one backtest
per combination (`runSingle` abstracts `run_single_backtest(df, symbol_info,
params)` over the fixed bar series, returning profit factor — `none` for
infinite — and trade count), record each result with the 2-dp-rounded
profit factor, and sort descending by profit factor. -/
def run_dynamic (runSingle : List ℚ → Option ℚ × ℕ) (grids : List (List ℚ)) :
    List OptResult :=
  let combos := pyProduct grids
  let all_results := combos.map (fun ps =>
    ⟨ps, ((runSingle ps).1).map (fun q => pyRound q 2), (runSingle ps).2⟩)
  sortPfDesc all_results

theorem ratFloor_eq_floor (q : ℚ) : ratFloor q = ⌊q⌋ := by
  rw [Rat.floor_def]
  exact Int.fdiv_eq_ediv _ (Int.ofNat_nonneg q.den)

theorem pyRoundInt_eq_of_lt {q : ℚ} {z : ℤ} (h1 : (z : ℚ) ≤ q)
    (h2 : q < (z : ℚ) + 1/2) : pyRoundInt q = z := by
  have hf : ⌊q⌋ = z := Int.floor_eq_iff.mpr ⟨h1, by linarith⟩
  simp only [pyRoundInt, ratFloor_eq_floor, hf]
  rw [if_pos (by linarith)]

theorem pyRoundInt_eq_of_gt {q : ℚ} {z : ℤ} (h1 : (z : ℚ) + 1/2 < q)
    (h2 : q < (z : ℚ) + 1) : pyRoundInt q = z + 1 := by
  have hf : ⌊q⌋ = z := Int.floor_eq_iff.mpr ⟨by linarith, by linarith⟩
  simp only [pyRoundInt, ratFloor_eq_floor, hf]
  rw [if_neg (by linarith), if_pos (by linarith)]

theorem pyRound_concrete {q : ℚ} {n : ℕ} {z : ℤ} {t : ℚ}
    (h1 : (z : ℚ) ≤ q * 10 ^ n) (h2 : q * 10 ^ n < (z : ℚ) + 1/2)
    (h3 : (z : ℚ) / 10 ^ n = t) : pyRound q n = t := by
  rw [pyRound, pyRoundInt_eq_of_lt h1 h2, h3]

theorem pyRound_concrete_hi {q : ℚ} {n : ℕ} {z : ℤ} {t : ℚ}
    (h1 : (z : ℚ) + 1/2 < q * 10 ^ n) (h2 : q * 10 ^ n < (z : ℚ) + 1)
    (h3 : ((z : ℚ) + 1) / 10 ^ n = t) : pyRound q n = t := by
  rw [pyRound, pyRoundInt_eq_of_gt h1 h2, ← h3]
  push_cast
  ring

theorem pyUpper_sBUY : pyUpper sBUY = sBUY := by decide

/-- C1: the spec (§4.4, §8) requires `calculate_sl_tp(direction, ask, bid)` to
widen the stop to `max(configured, spread + broker_min)` and to return a
triple exposing the effective stop distance.  The code in
`src/risk_manager.py` does neither: at the spec's own test vector
(increment 0.0001, configured stop 8, ratio 2.0, broker minimum 10, ask
1.2000, bid 1.1998) it places the BUY stop at 1.1992 and the target at 1.2016
— the unwidened 8-increment distance — and returns only a pair, while the
spec-modelled function mandates stop 1.1988, target 1.2024 and effective
distance 12. -/
theorem C1_src_ignores_spread_and_min_stop :
    RiskManager.calculate_sl_tp ⟨8, 2, 1/10000, 4⟩ sBUY (12/10)
      = (some (11992/10000), some (12016/10000))
    ∧ spec_calculate_sl_tp ⟨8, 10, 2, 1/10000, 4⟩ sBUY (12/10) (11998/10000)
      = some (11988/10000, 12024/10000, 12)
    ∧ (11992 : ℚ)/10000 ≠ 11988/10000 := by
  refine ⟨?_, ?_, by norm_num⟩
  · norm_num [RiskManager.calculate_sl_tp, pyUpper_sBUY]
    exact ⟨pyRound_concrete (z := 11992) (by norm_num) (by norm_num) (by norm_num),
           pyRound_concrete (z := 12016) (by norm_num) (by norm_num) (by norm_num)⟩
  · norm_num [spec_calculate_sl_tp]
    refine ⟨pyRound_concrete (z := 11988) ?_ ?_ ?_,
            pyRound_concrete (z := 12024) ?_ ?_ ?_⟩ <;> norm_num

/-- C2: with `point = 0.00001` Python renders `str(point)` as `'1e-05'`, which
contains no `'.'`, so `risk_manager.py` line 100 derives `price_decimals = 0`
— not the 5 decimals the claim (and the code's own comment, line 99) state —
and `calculate_sl_tp` then rounds a BUY at entry 1.2 with a 50-increment stop
to the whole numbers (1.0, 1.0).  With `point = 0.0001` (rendered `'0.0001'`)
the derivation does give 4 decimals, showing the claimed mechanism only works
for increments at or above `10 ^ (-4)`. -/
theorem C2_point_1e5_yields_zero_decimals :
    price_decimals_of (pyFloatStrPow10 5) = 0
    ∧ price_decimals_of (pyFloatStrPow10 4) = 4
    ∧ RiskManager.calculate_sl_tp
        ⟨50, 2, 1/100000, price_decimals_of (pyFloatStrPow10 5)⟩ sBUY (12/10)
      = (some 1, some 1)
    ∧ price_decimals_of (pyFloatStrPow10 5) ≠ 5 := by
  have h0 : price_decimals_of (pyFloatStrPow10 5) = 0 := by decide
  refine ⟨h0, by decide, ?_, by decide⟩
  rw [h0]
  norm_num [RiskManager.calculate_sl_tp, pyUpper_sBUY]
  exact ⟨pyRound_concrete (z := 1) (by norm_num) (by norm_num) (by norm_num),
         pyRound_concrete (z := 1) (by norm_num) (by norm_num) (by norm_num)⟩

theorem pyGt_none_left (x : Option ℚ) : pyGt none x = false := rfl

theorem pyLt_none_left (x : Option ℚ) : pyLt none x = false := rfl

theorem pyGe_none_left (x : Option ℚ) : pyGe none x = false := rfl

theorem pyLe_none_left (x : Option ℚ) : pyLe none x = false := rfl

/-- C6: any indicator value the entry decision consults — ADX, Stochastic %K
or the slow (or fast) EMA at the last closed bar, or %K at the prior closed
bar — being undefined forces HOLD, whatever the trending, trend-direction and
crossover conditions would otherwise say.  At the last bar the guard at
trading_strategy.py line 75 fires for ADX/%K/slow-EMA; an undefined prior-bar
%K or last-bar fast EMA forces HOLD because every Python comparison against
`NaN` is `False`, so neither crossover nor trend direction can hold. -/
theorem C6_undefined_indicator_gives_hold (p : StratParams) (nbars : ℕ)
    (adx_l kst_l kst_p fe_l se_l : Option ℚ)
    (h : adx_l = none ∨ kst_l = none ∨ kst_p = none ∨ fe_l = none ∨ se_l = none) :
    get_entry_signal p nbars adx_l kst_l kst_p fe_l se_l = sHOLD := by
  unfold get_entry_signal
  split
  · rfl
  · rcases h with h | h | h | h | h
    · rw [if_pos (Or.inl h)]
    · rw [if_pos (Or.inr (Or.inl h))]
    · subst h
      split
      · rfl
      · simp [pyLe_none_left, pyGe_none_left]
    · subst h
      split
      · rfl
      · simp [pyGt_none_left, pyLt_none_left]
    · rw [if_pos (Or.inr (Or.inr h))]

theorem C6_witness :
    ((none : Option ℚ) = none ∨ (some (55 : ℚ)) = none ∨ (some (15 : ℚ)) = none
      ∨ (some (3 : ℚ)) = none ∨ (some (2 : ℚ)) = none)
    ∧ get_entry_signal ⟨21, 50, 14, 25, 14, 3, 3, 20, 80⟩ 60 none (some 55)
        (some 15) (some 3) (some 2) = sHOLD :=
  ⟨Or.inl rfl,
   C6_undefined_indicator_gives_hold _ _ _ _ _ _ _ (Or.inl rfl)⟩

/-- C9: a `position_type` whose upper-cased form is neither BUY nor SELL
falls through both EMA-cross branches of `get_exit_signal` and returns
`False`. -/
theorem C9_unrecognized_direction_no_exit (p : StratParams) (nbars : ℕ)
    (fl sl fp sp : Option ℚ) (position_type : String)
    (hb : pyUpper position_type ≠ sBUY) (hs : pyUpper position_type ≠ sSELL) :
    get_exit_signal p nbars fl sl fp sp position_type = false := by
  simp [get_exit_signal, hb, hs]

/-- The string literal "hodl", an unrecognized position direction. -/
def sHODL : String := "hodl"

theorem C9_witness :
    (pyUpper sHODL ≠ sBUY ∧ pyUpper sHODL ≠ sSELL)
    ∧ get_exit_signal ⟨21, 50, 14, 25, 14, 3, 3, 20, 80⟩ 60 (some 1) (some 2)
        (some 3) (some 4) sHODL = false :=
  ⟨⟨by decide, by decide⟩,
   C9_unrecognized_direction_no_exit _ _ _ _ _ _ _ (by decide) (by decide)⟩

theorem foldl_write_read_ne {j k : ℕ} (hne : k ≠ j)
    (l : List (List (String × List ℚ))) (s : Store) :
    (l.foldl (fun s2 cs =>
      match s2.read j with
      | none => s2
      | some df => s2.write j (df.appendCols cs)) s).read k = s.read k := by
  induction l generalizing s with
  | nil => rfl
  | cons c t ih =>
    rw [List.foldl_cons, ih]
    cases hr : s.read j with
    | none => rfl
    | some df =>
      simp [Store.write, Store.read, List.getElem?_set_ne (Ne.symm hne)]

/-- C10: neither signal function mutates the caller's DataFrame: both copy
it first and run every `append=True` indicator call on the copy, so reading
the caller's frame id after the call gives exactly the frame that was there
before. -/
theorem C10_signal_functions_do_not_mutate_caller (st : Store) (h : ℕ)
    (indCols : List (List (String × List ℚ)))
    (fastCols slowCols : List (String × List ℚ)) :
    (get_entry_signal_frames st h indCols).read h = st.read h
    ∧ (get_exit_signal_frames st h fastCols slowCols).read h = st.read h := by
  have key : ∀ l : List (List (String × List ℚ)),
      (match st.read h with
       | none => st
       | some f =>
         let a := st.alloc f
         l.foldl (fun s cs =>
           match s.read a.2 with
           | none => s
           | some df => s.write a.2 (df.appendCols cs)) a.1).read h = st.read h := by
    intro l
    cases hr : st.read h with
    | none => exact hr
    | some f =>
      have hlt : h < st.frames.length := by
        by_contra hge
        rw [Store.read, List.getElem?_eq_none (by omega)] at hr
        cases hr
      simp only [Store.alloc]
      rw [foldl_write_read_ne (show h ≠ st.frames.length by omega)]
      simp only [Store.read]
      rw [List.getElem?_append_left hlt]
      exact hr
  exact ⟨key indCols, key [fastCols, slowCols]⟩

/-- C4: the loop state holds at most one open position at every simulated
bar (the state machine is a single optional `current_trade`), and the entry
block is a no-op whenever a trade is open — a new trade is only created from
the FLAT state. -/
theorem C4_single_position (es : List Candle → String)
    (xs : List Candle → String → Bool)
    (rc : String → ℚ → ℚ → Option ℚ × Option ℚ) (pt : ℚ)
    (hist df : List Candle) (s0 : SimState) :
    (∀ s ∈ simTrace es xs rc pt hist df s0, openCount s ≤ 1)
    ∧ (∀ (h : List Candle) (c : Candle) (s : SimState) (t : Trade),
        s.current_trade = some t → entryPhase es rc h c s = s) := by
  constructor
  · intro s _
    cases hc : s.current_trade <;> simp [openCount, hc]
  · intro h c s t ht
    simp [entryPhase, ht]

/-- A concrete open BUY trade used by the engine examples. -/
def cTrade : Trade := ⟨1, sBUY, 1, 10, 9, 11⟩

theorem C4_witness :
    (⟨some cTrade, []⟩ : SimState).current_trade = some cTrade
    ∧ entryPhase cEntryBuy cRisk [] cBar1 ⟨some cTrade, []⟩ = ⟨some cTrade, []⟩ :=
  ⟨rfl,
   (C4_single_position cEntryBuy cExitNever cRisk 1 [] [] ⟨some cTrade, []⟩).2
     [] cBar1 ⟨some cTrade, []⟩ cTrade rfl⟩

/-- C3 counterexample: a two-bar run of the backtest loop in which bar 1
opens a BUY at 10 (stop 9, target 11) and bar 2 gaps to 8: the stop is hit
and the trade closed with `exit_time = 2`, yet the very same bar 2 opens a
fresh position (`entry_time = 2`), because the entry block runs whenever
`current_trade` is `None` — including immediately after a close.  This
refutes "no new position is opened on the bar that closes one". -/
theorem C3_counterexample :
    runLoop cEntryBuy cExitNever cRisk 1 [] [cBar1, cBar2] ⟨none, []⟩
      = ⟨some ⟨2, sBUY, 2, 8, 7, 9⟩,
         [⟨⟨1, sBUY, 1, 10, 9, 11⟩, 9, 2, -1, "SL Hit"⟩]⟩ := by
  norm_num [runLoop, stepBar, exitPhase, entryPhase, check_sl_tp, truthy,
    cEntryBuy, cExitNever, cRisk, cBar1, cBar2, sBUY, sSELL]

/-- C3 amended: on every bar that closes an open position, the engine
immediately re-checks for entry on that same bar; whenever the entry signal
fires with truthy stop/target levels it opens a new position carrying that
bar's time and close price — re-entry is not deferred to the next bar. -/
theorem C3_amended_same_bar_reentry (es : List Candle → String)
    (xs : List Candle → String → Bool)
    (rc : String → ℚ → ℚ → Option ℚ × Option ℚ) (pt : ℚ)
    (h : List Candle) (c : Candle) (s : SimState) (t : Trade) (slp tpp : ℚ)
    (ht : s.current_trade = some t)
    (hclosed : (exitPhase xs pt h c s).current_trade = none)
    (hsig : es h = sBUY ∨ es h = sSELL)
    (hrc : rc (es h) c.close c.close = (some slp, some tpp))
    (hslp : slp ≠ 0) (htpp : tpp ≠ 0) :
    (stepBar es xs rc pt h c s).current_trade
      = some ⟨(exitPhase xs pt h c s).completed_trades.length + 1, es h, c.time,
              c.close, slp, tpp⟩ := by
  unfold stepBar entryPhase
  simp only [hclosed, hrc]
  rw [if_pos hsig, if_neg (by tauto)]

theorem C3_amended_witness :
    ((⟨some cTrade, []⟩ : SimState).current_trade = some cTrade
      ∧ (exitPhase cExitNever 1 [cBar1, cBar2] cBar2 ⟨some cTrade, []⟩).current_trade = none
      ∧ (cEntryBuy [cBar1, cBar2] = sBUY ∨ cEntryBuy [cBar1, cBar2] = sSELL)
      ∧ cRisk (cEntryBuy [cBar1, cBar2]) cBar2.close cBar2.close = (some 7, some 9)
      ∧ (7 : ℚ) ≠ 0 ∧ (9 : ℚ) ≠ 0)
    ∧ (stepBar cEntryBuy cExitNever cRisk 1 [cBar1, cBar2] cBar2 ⟨some cTrade, []⟩).current_trade
        = some ⟨(exitPhase cExitNever 1 [cBar1, cBar2] cBar2
                  ⟨some cTrade, []⟩).completed_trades.length + 1,
                cEntryBuy [cBar1, cBar2], cBar2.time, cBar2.close, 7, 9⟩ :=
  ⟨⟨rfl,
    by norm_num [exitPhase, check_sl_tp, truthy, cExitNever, cTrade, cBar2, sBUY, sSELL],
    Or.inl rfl,
    by norm_num [cRisk, cEntryBuy, cBar2],
    by norm_num, by norm_num⟩,
   C3_amended_same_bar_reentry cEntryBuy cExitNever cRisk 1 [cBar1, cBar2] cBar2
     ⟨some cTrade, []⟩ cTrade 7 9 rfl
     (by norm_num [exitPhase, check_sl_tp, truthy, cExitNever, cTrade, cBar2, sBUY, sSELL])
     (Or.inl rfl)
     (by norm_num [cRisk, cEntryBuy, cBar2])
     (by norm_num) (by norm_num)⟩

/-- C5: on a bar whose range touches both levels of an open position
(BUY: low ≤ stop and high ≥ target; SELL mirrored), the exit phase closes
the trade at the stop price with comment "SL Hit" — the stop check takes
priority — and its result does not depend on the strategy-exit function at
all, i.e. the strategy-exit rule is never consulted. -/
theorem C5_stop_beats_target_and_skips_strategy_exit
    (xs1 xs2 : List Candle → String → Bool) (pt : ℚ)
    (h : List Candle) (c : Candle) (s : SimState) (t : Trade)
    (ht : s.current_trade = some t) (hsl : t.sl ≠ 0)
    (hboth : (t.type = sBUY ∧ c.low ≤ t.sl ∧ c.high ≥ t.tp)
           ∨ (t.type = sSELL ∧ c.high ≥ t.sl ∧ c.low ≤ t.tp)) :
    exitPhase xs1 pt h c s
      = ⟨none, s.completed_trades ++
          [⟨t, t.sl, c.time,
            if t.type = sBUY then (t.sl - t.entry_price) / pt
            else (t.entry_price - t.sl) / pt, "SL Hit"⟩]⟩
    ∧ exitPhase xs1 pt h c s = exitPhase xs2 pt h c s := by
  have key : ∀ xs : List Candle → String → Bool,
      exitPhase xs pt h c s
        = ⟨none, s.completed_trades ++
            [⟨t, t.sl, c.time,
              if t.type = sBUY then (t.sl - t.entry_price) / pt
              else (t.entry_price - t.sl) / pt, "SL Hit"⟩]⟩ := by
    intro xs
    rcases hboth with ⟨hty, h1, _⟩ | ⟨hty, h1, _⟩ <;>
      simp [exitPhase, check_sl_tp, ht, hty, h1, truthy, hsl, sBUY, sSELL]
  exact ⟨key xs1, (key xs1).trans (key xs2).symm⟩

/-- Example strategy input: a protective exit that always fires. -/
def cExitAlways : List Candle → String → Bool := fun _ _ => true

/-- Example bar whose range touches both the stop 9 and the target 11 of
`cTrade`. -/
def cBarBoth : Candle := ⟨2, 10, 12, 8, 10⟩

theorem C5_witness :
    ((⟨some cTrade, []⟩ : SimState).current_trade = some cTrade
      ∧ cTrade.sl ≠ 0
      ∧ (cTrade.type = sBUY ∧ cBarBoth.low ≤ cTrade.sl ∧ cBarBoth.high ≥ cTrade.tp))
    ∧ exitPhase cExitNever 1 [] cBarBoth ⟨some cTrade, []⟩
        = ⟨none, [] ++
            [⟨cTrade, cTrade.sl, cBarBoth.time,
              if cTrade.type = sBUY then (cTrade.sl - cTrade.entry_price) / 1
              else (cTrade.entry_price - cTrade.sl) / 1, "SL Hit"⟩]⟩
    ∧ exitPhase cExitNever 1 [] cBarBoth ⟨some cTrade, []⟩
        = exitPhase cExitAlways 1 [] cBarBoth ⟨some cTrade, []⟩ := by
  have hb : cTrade.type = sBUY ∧ cBarBoth.low ≤ cTrade.sl ∧ cBarBoth.high ≥ cTrade.tp := by
    refine ⟨rfl, by norm_num [cTrade, cBarBoth], by norm_num [cTrade, cBarBoth]⟩
  have hmain := C5_stop_beats_target_and_skips_strategy_exit cExitNever cExitAlways 1
    [] cBarBoth ⟨some cTrade, []⟩ cTrade rfl (by norm_num [cTrade]) (Or.inl hb)
  exact ⟨⟨rfl, by norm_num [cTrade], hb⟩, hmain.1, hmain.2⟩

/-- C7: on a non-empty ledger the report computes win rate as
`count(pnl>0)/total×100`; profit factor as gross profit over gross loss,
infinite (`none`) exactly when the gross loss is zero; average win/loss as
the mean of each partition and 0 for an empty partition; and on the spec's
example ledger [+10, -5, +15] it yields win rate 200/3 (displayed 66.67),
profit factor 5, average win 12.5 and average loss -5. -/
theorem C7_performance_summary (pnl : List ℚ) (hne : pnl ≠ []) :
    win_rate pnl = ((winning_trades pnl).length : ℚ) / (pnl.length : ℚ) * 100
    ∧ (gross_loss pnl ≠ 0 →
        profit_factor pnl = some (gross_profit pnl / gross_loss pnl))
    ∧ (gross_loss pnl = 0 → profit_factor pnl = none)
    ∧ (winning_trades pnl ≠ [] →
        avg_win pnl = (winning_trades pnl).sum / ((winning_trades pnl).length : ℚ))
    ∧ (winning_trades pnl = [] → avg_win pnl = 0)
    ∧ (losing_trades pnl ≠ [] →
        avg_loss pnl = (losing_trades pnl).sum / ((losing_trades pnl).length : ℚ))
    ∧ (losing_trades pnl = [] → avg_loss pnl = 0)
    ∧ win_rate [10, -5, 15] = 200/3
    ∧ pyRound (win_rate [10, -5, 15]) 2 = 6667/100
    ∧ profit_factor [10, -5, 15] = some 5
    ∧ avg_win [10, -5, 15] = 25/2
    ∧ avg_loss [10, -5, 15] = -5 := by
  have hw3 : winning_trades [10, -5, 15] = [10, 15] := by
    norm_num [winning_trades, List.filter]
  have hl3 : losing_trades [10, -5, 15] = [-5] := by
    norm_num [losing_trades, List.filter]
  have hwr : win_rate [10, -5, 15] = 200/3 := by
    rw [win_rate, if_pos (by norm_num)]
    rw [hw3]
    norm_num
  refine ⟨?_, ?_, ?_, ?_, ?_, ?_, ?_, hwr, ?_, ?_, ?_, ?_⟩
  · rw [win_rate, if_pos (List.length_pos.mpr hne)]
  · intro hgl
    have hpos : 0 < gross_loss pnl :=
      lt_of_le_of_ne (by rw [gross_loss]; exact abs_nonneg _) (Ne.symm hgl)
    rw [profit_factor, if_pos hpos]
  · intro hgl
    rw [profit_factor, if_neg (by rw [hgl]; exact lt_irrefl 0)]
  · intro hw
    rw [avg_win, if_pos (List.length_pos.mpr hw)]
  · intro hw
    rw [avg_win, hw]
    simp
  · intro hl
    rw [avg_loss, if_pos (List.length_pos.mpr hl)]
  · intro hl
    rw [avg_loss, hl]
    simp
  · rw [hwr]
    exact pyRound_concrete_hi (z := 6666) (by norm_num) (by norm_num) (by norm_num)
  · rw [profit_factor, gross_loss, gross_profit, hw3, hl3]
    rw [if_pos (by norm_num)]
    norm_num
  · rw [avg_win, hw3]
    norm_num
  · rw [avg_loss, hl3]
    norm_num

theorem C7_witness :
    ([10, -5, 15] : List ℚ) ≠ []
    ∧ (win_rate [10, -5, 15]
        = ((winning_trades [10, -5, 15]).length : ℚ) / (([10, -5, 15] : List ℚ).length : ℚ) * 100
      ∧ (gross_loss [10, -5, 15] ≠ 0 →
          profit_factor [10, -5, 15]
            = some (gross_profit [10, -5, 15] / gross_loss [10, -5, 15]))
      ∧ (gross_loss [10, -5, 15] = 0 → profit_factor [10, -5, 15] = none)
      ∧ (winning_trades [10, -5, 15] ≠ [] →
          avg_win [10, -5, 15]
            = (winning_trades [10, -5, 15]).sum / ((winning_trades [10, -5, 15]).length : ℚ))
      ∧ (winning_trades [10, -5, 15] = [] → avg_win [10, -5, 15] = 0)
      ∧ (losing_trades [10, -5, 15] ≠ [] →
          avg_loss [10, -5, 15]
            = (losing_trades [10, -5, 15]).sum / ((losing_trades [10, -5, 15]).length : ℚ))
      ∧ (losing_trades [10, -5, 15] = [] → avg_loss [10, -5, 15] = 0)
      ∧ win_rate [10, -5, 15] = 200/3
      ∧ pyRound (win_rate [10, -5, 15]) 2 = 6667/100
      ∧ profit_factor [10, -5, 15] = some 5
      ∧ avg_win [10, -5, 15] = 25/2
      ∧ avg_loss [10, -5, 15] = -5) :=
  ⟨by simp, C7_performance_summary [10, -5, 15] (by simp)⟩

theorem pfLe_total (a b : Option ℚ) : pfLe a b = true ∨ pfLe b a = true := by
  cases a <;> cases b <;> simp [pfLe]
  exact le_total _ _

theorem pfLe_trans {a b c : Option ℚ} (h1 : pfLe a b = true)
    (h2 : pfLe b c = true) : pfLe a c = true := by
  cases a <;> cases b <;> cases c <;> simp_all [pfLe]
  exact h1.trans h2

instance : IsTotal OptResult pfGeRel :=
  ⟨fun a b => pfLe_total b.pf a.pf⟩

instance : IsTrans OptResult pfGeRel :=
  ⟨fun _ _ _ h1 h2 => pfLe_trans h2 h1⟩

theorem pyProduct_length (gs : List (List ℚ)) :
    (pyProduct gs).length = (gs.map List.length).prod := by
  induction gs with
  | nil => rfl
  | cons g t ih =>
    simp [pyProduct, List.length_flatMap, Function.comp_def, List.length_map, ih,
      List.map_const', List.sum_replicate, smul_eq_mul, mul_comm]

theorem pyProduct_mem (gs : List (List ℚ)) (ps : List ℚ) :
    ps ∈ pyProduct gs ↔ List.Forall₂ (fun x g => x ∈ g) ps gs := by
  induction gs generalizing ps with
  | nil => simp [pyProduct, List.forall₂_nil_right_iff]
  | cons g t ih =>
    simp only [pyProduct, List.mem_flatMap, List.mem_map,
      List.forall₂_cons_right_iff, ih]
    constructor
    · rintro ⟨a, ha, v, hv, rfl⟩
      exact ⟨a, v, ha, hv, rfl⟩
    · rintro ⟨a, v, ha, hv, rfl⟩
      exact ⟨a, ha, v, hv, rfl⟩

theorem pyProduct_nodup (gs : List (List ℚ)) (h : ∀ g ∈ gs, g.Nodup) :
    (pyProduct gs).Nodup := by
  induction gs with
  | nil => simp [pyProduct]
  | cons g t ih =>
    have hg : g.Nodup := h g (List.mem_cons_self g t)
    have ht : (pyProduct t).Nodup := ih (fun g' hg' => h g' (List.mem_cons_of_mem _ hg'))
    apply List.nodup_flatMap.mpr
    refine ⟨fun x _ => ht.map (List.cons_injective), ?_⟩
    refine hg.imp ?_
    intro a b hne ps hpa hpb
    rcases List.mem_map.mp hpa with ⟨v, _, rfl⟩
    rcases List.mem_map.mp hpb with ⟨w, _, hw⟩
    exact hne (List.head_eq_of_cons_eq hw).symm

/-- C8: the optimizer enumerates the full Cartesian product of the candidate
value lists (exhaustively: membership is exactly componentwise membership;
without duplicate parameter tuples when the value lists are duplicate-free),
runs one backtest per combination over the fixed bar series, and reports the
records sorted by profit factor in descending order (a permutation of the
one-record-per-combination list). -/
theorem C8_grid_search (runSingle : List ℚ → Option ℚ × ℕ)
    (grids : List (List ℚ)) (hnd : ∀ g ∈ grids, g.Nodup) :
    (run_dynamic runSingle grids).length = (grids.map List.length).prod
    ∧ (pyProduct grids).Nodup
    ∧ (∀ ps, ps ∈ pyProduct grids ↔ List.Forall₂ (fun x g => x ∈ g) ps grids)
    ∧ (run_dynamic runSingle grids).Perm
        ((pyProduct grids).map (fun ps =>
          ⟨ps, ((runSingle ps).1).map (fun q => pyRound q 2), (runSingle ps).2⟩))
    ∧ List.Sorted pfGeRel (run_dynamic runSingle grids) := by
  refine ⟨?_, pyProduct_nodup grids hnd, fun ps => pyProduct_mem grids ps, ?_, ?_⟩
  · rw [run_dynamic, sortPfDesc]
    rw [(List.perm_insertionSort pfGeRel _).length_eq, List.length_map,
      pyProduct_length]
  · exact List.perm_insertionSort pfGeRel _
  · exact List.sorted_insertionSort pfGeRel _

/-- A concrete 2×1 optimization grid. -/
def wGrid : List (List ℚ) := [[1, 2], [3]]

/-- A concrete stand-in backtest: profit factor = sum of the parameters,
trade count = their number. -/
def wRunSingle : List ℚ → Option ℚ × ℕ := fun ps => (some ps.sum, ps.length)

theorem C8_witness :
    (∀ g ∈ wGrid, g.Nodup)
    ∧ ((run_dynamic wRunSingle wGrid).length = (wGrid.map List.length).prod
      ∧ (pyProduct wGrid).Nodup
      ∧ (∀ ps, ps ∈ pyProduct wGrid ↔ List.Forall₂ (fun x g => x ∈ g) ps wGrid)
      ∧ (run_dynamic wRunSingle wGrid).Perm
          ((pyProduct wGrid).map (fun ps =>
            ⟨ps, ((wRunSingle ps).1).map (fun q => pyRound q 2), (wRunSingle ps).2⟩))
      ∧ List.Sorted pfGeRel (run_dynamic wRunSingle wGrid)) :=
  ⟨by norm_num [wGrid], C8_grid_search wRunSingle wGrid (by norm_num [wGrid])⟩

theorem exitPhase_current_trade (xs : List Candle → String → Bool) (pt : ℚ)
    (h : List Candle) (c : Candle) (s : SimState) :
    (exitPhase xs pt h c s).current_trade = s.current_trade
    ∨ (exitPhase xs pt h c s).current_trade = none := by
  unfold exitPhase
  split
  · left; rfl
  · dsimp only
    split
    · left; rfl
    · split
      · left; rfl
      · right; rfl

theorem entryPhase_cases (es : List Candle → String)
    (rc : String → ℚ → ℚ → Option ℚ × Option ℚ)
    (h : List Candle) (c : Candle) (s : SimState) :
    entryPhase es rc h c s = s
    ∨ ∃ slp tpp, slp ≠ 0 ∧ tpp ≠ 0
        ∧ entryPhase es rc h c s
          = ⟨some ⟨s.completed_trades.length + 1, es h, c.time, c.close, slp, tpp⟩,
             s.completed_trades⟩ := by
  unfold entryPhase
  split
  · left; rfl
  · dsimp only
    split
    · split
      · rename_i slp tpp heq
        split
        · left; rfl
        · rename_i hne
          push_neg at hne
          exact Or.inr ⟨slp, tpp, hne.1, hne.2, rfl⟩
      · left; rfl
    · left; rfl

/-- Every open trade reachable by the simulation loop from a state whose
open trade (if any) has nonzero levels itself has nonzero stop and target:
the entry guard `if sl_price and tp_price:` never admits a zero level.  This
is why the `t.sl ≠ 0` hypothesis of the stop-priority theorem is satisfied
by every engine-created position. -/
theorem engine_open_trades_have_nonzero_levels (es : List Candle → String)
    (xs : List Candle → String → Bool)
    (rc : String → ℚ → ℚ → Option ℚ × Option ℚ) (pt : ℚ) :
    ∀ (df hist : List Candle) (s0 : SimState),
    (∀ t, s0.current_trade = some t → t.sl ≠ 0 ∧ t.tp ≠ 0) →
    ∀ s ∈ simTrace es xs rc pt hist df s0,
    ∀ t, s.current_trade = some t → t.sl ≠ 0 ∧ t.tp ≠ 0 := by
  intro df
  induction df with
  | nil =>
    intro hist s0 _ s hs
    simp [simTrace] at hs
  | cons c rest ih =>
    intro hist s0 h0 s hs t hst
    have hstep : ∀ t',
        (stepBar es xs rc pt (hist ++ [c]) c s0).current_trade = some t' →
        t'.sl ≠ 0 ∧ t'.tp ≠ 0 := by
      intro t' ht'
      rw [stepBar] at ht'
      rcases entryPhase_cases es rc (hist ++ [c]) c
          (exitPhase xs pt (hist ++ [c]) c s0) with he | ⟨slp, tpp, h1, h2, he⟩
      · rw [he] at ht'
        rcases exitPhase_current_trade xs pt (hist ++ [c]) c s0 with hx | hx
        · exact h0 t' (hx ▸ ht')
        · rw [ht'] at hx
          cases hx
      · rw [he] at ht'
        have hrec := Option.some.inj ht'
        rw [← hrec]
        exact ⟨h1, h2⟩
    simp only [simTrace] at hs
    rcases List.mem_cons.mp hs with rfl | hs'
    · exact hstep t hst
    · exact ih (hist ++ [c]) _ hstep s hs' t hst
